import Mathlib

/-!
Shallow embedding of the dynamic schema validation engine of the
trackr-back repository (`src/api/models.py`, `Entry.clean` and
`Entry._validate_value`, together with the serializer glue
`EntrySerializer.validate` in `src/api/serializers.py`).

JSON values stored in `Entry.data` are modelled by `JValue`; Python
numbers (int/float) are modelled exactly by integers and rationals, and
Python's `isinstance(value, (int, float))` check — under which `bool` is
a subtype of `int` — is modelled by `toNum`.  Error message strings are
modelled by the inductive `Msg`, one constructor per literal format
string in the source, carrying the format's parameters.
-/

deriving instance DecidableEq for Except

namespace Trackr

/-- Lexicographic order on character sequences by code point — the order
Python's `sorted` uses on `str`. -/
def lexLe : List Char → List Char → Bool
  | [], _ => true
  | _ :: _, [] => false
  | a :: as, b :: bs =>
    if a.toNat < b.toNat then true
    else if b.toNat < a.toNat then false
    else lexLe as bs

/-- Python `s1 <= s2` on strings: code-point lexicographic comparison. -/
def strLe (a b : String) : Bool := lexLe a.data b.data

/-- Insert a string into a `strLe`-sorted list, keeping it sorted. -/
def insortKey (s : String) : List String → List String
  | [] => [s]
  | t :: ts => if strLe s t then s :: t :: ts else t :: insortKey s ts

/-- Python `sorted` on a collection of strings (insertion sort). -/
def sortKeys : List String → List String
  | [] => []
  | s :: ss => insortKey s (sortKeys ss)

/-- Python `set(...)`: each key kept once (the sort that follows makes the
retained order irrelevant). -/
def dedupKeys : List String → List String
  | [] => []
  | k :: ks => if k ∈ ks then dedupKeys ks else k :: dedupKeys ks

/-- A JSON-compatible value as stored in `Entry.data`.  Python `bool` is a
distinct constructor because `isinstance(value, bool)` distinguishes it,
while numeric contexts treat it as 0/1 (see `toNum`). -/
inductive JValue where
  | null : JValue
  | jstr : String → JValue
  | jint : Int → JValue
  | jfloat : ℚ → JValue
  | jbool : Bool → JValue
  | jlist : List JValue → JValue

/-- `value in (None, "", [])` — the empty sentinels of the presence test in
`Entry.clean` (models.py line 212).  Python tuple membership compares with
`==`; no value other than `None`, `""`, `[]` themselves equals one of them. -/
def isAbsentValue : JValue → Bool
  | .null => true
  | .jstr s => decide (s = "")
  | .jlist xs => xs.isEmpty
  | _ => false

/-- `isinstance(value, str)`. -/
def isStr : JValue → Bool
  | .jstr _ => true
  | _ => false

/-- `isinstance(value, bool)` — Python accepts exactly `True`/`False` here. -/
def isBool : JValue → Bool
  | .jbool _ => true
  | _ => false

/-- `isinstance(value, (int, float))`, returning the numeric value used in
comparisons.  Python `bool` is a subclass of `int`, so `True`/`False` pass
this check and compare as `1`/`0`. -/
def toNum : JValue → Option ℚ
  | .jint n => some (n : ℚ)
  | .jfloat q => some q
  | .jbool b => some (if b then 1 else 0)
  | _ => none

/-- Python `value in choices` where `choices` is a list of strings: a
non-string value never equals any string, so only `jstr` members count. -/
def inChoices (choices : List String) : JValue → Bool
  | .jstr s => choices.contains s
  | _ => false

/-- The `options` JSON bag of a `FieldDefinition` (models.py line 88),
restricted to the keys the validator reads via `opts.get`: `min`, `max`
(number), `choices` (select / multi_select), `item_type`, `min_items`,
`max_items` (list).  A key absent from the dict is `none`; for `choices`
the source's default `[]` coincides with absence (`opts.get("choices", [])`),
and for `item_type` the default is `"text"` (`opts.get("item_type", "text")`),
so those defaults are folded into the field. -/
structure Options where
  min : Option ℚ := none
  max : Option ℚ := none
  choices : List String := []
  item_type : String := "text"
  min_items : Option Int := none
  max_items : Option Int := none
deriving DecidableEq

/-- `FieldDefinition` (models.py lines 54-104), restricted to the columns the
validator reads: `key` (the intended JSON key), `label`, `field_type`
(a string from the `FieldType` choices — kept as a string because
`_validate_value` dispatches on its string value and has an explicit
fallback for unrecognized tags), `required`, `options`. -/
structure FieldDefinition where
  key : String
  label : String
  field_type : String
  required : Bool
  options : Options := {}
deriving DecidableEq

/-- One constructor per `ValidationError` / error message format string in
`Entry.clean` and `Entry._validate_value`, carrying the parameters that the
Python f-strings interpolate. -/
inductive Msg where
  | required : Msg                            -- "This field is required."
  | mustBeString : Msg                        -- "Must be a string."
  | mustBeBool : Msg                          -- "Must be true/false."
  | mustBeNumber : Msg                        -- "Must be a number."
  | geMin : ℚ → Msg                           -- "Must be >= {minv}."
  | leMax : ℚ → Msg                           -- "Must be <= {maxv}."
  | mustBeDateString : Msg                    -- "Must be an ISO date/datetime string."
  | invalidChoice : Msg                       -- "Invalid choice."
  | mustBeListOfStrings : Msg                 -- "Must be a list of strings."
  | containsInvalidChoices : Msg              -- "Contains invalid choice(s)."
  | mustBeList : Msg                          -- "Must be a list."
  | atLeastItems : Int → Msg                  -- "Must contain at least {min_items} items."
  | atMostItems : Int → Msg                   -- "Must contain at most {max_items} items."
  | itemsStrings : Msg                        -- "All items must be strings."
  | itemsNumbers : Msg                        -- "All items must be numbers."
  | itemsBools : Msg                          -- "All items must be booleans."
  | unsupportedType : Msg                     -- "Unsupported field type."
  | unknownFieldKeys : List String → Msg      -- "Unknown field keys: {sorted(unknown)}"
deriving DecidableEq

/-- The `max` half of the number branch (models.py lines 253-254): runs only
when the `min` check did not raise. -/
def checkNumMax (opts : Options) (q : ℚ) : Except Msg Unit :=
  match opts.max with
  | some maxv => if q > maxv then .error (.leMax maxv) else .ok ()
  | none => .ok ()

/-- The number branch of `_validate_value` (models.py lines 246-255):
type check, then `min`, then `max`, raising at the first violation. -/
def checkNumber (opts : Options) (value : JValue) : Except Msg Unit :=
  match toNum value with
  | none => .error .mustBeNumber
  | some q =>
    match opts.min with
    | some minv => if q < minv then .error (.geMin minv) else checkNumMax opts q
    | none => checkNumMax opts q

/-- The select branch (models.py lines 264-270): string check first, then —
only when `choices` is non-empty (Python truthiness of the list) —
membership. -/
def checkSelect (opts : Options) (value : JValue) : Except Msg Unit :=
  match value with
  | .jstr s =>
    if opts.choices ≠ [] ∧ ¬ opts.choices.contains s then .error .invalidChoice
    else .ok ()
  | _ => .error .mustBeString

/-- The multi_select branch (models.py lines 272-280): the value must be a
list with every element a string; then, when `choices` is non-empty, every
element must be a member. -/
def checkMultiSelect (opts : Options) (value : JValue) : Except Msg Unit :=
  match value with
  | .jlist xs =>
    if !(xs.all isStr) then .error .mustBeListOfStrings
    else if opts.choices ≠ [] ∧ xs.any (fun x => !(inChoices opts.choices x)) then
      .error .containsInvalidChoices
    else .ok ()
  | _ => .error .mustBeListOfStrings

/-- One iteration of the item loop of the list branch (models.py lines
296-302): three guarded raises, first violation wins.  An `item_type`
outside {text, number, boolean} checks nothing. -/
def checkItem (it : String) (x : JValue) : Except Msg Unit :=
  if it = "text" ∧ ¬ isStr x then .error .itemsStrings
  else if it = "number" ∧ (toNum x).isNone then .error .itemsNumbers
  else if it = "boolean" ∧ ¬ isBool x then .error .itemsBools
  else .ok ()

/-- The item loop itself: raising at the first offending element. -/
def checkItems (it : String) : List JValue → Except Msg Unit
  | [] => .ok ()
  | x :: xs =>
    match checkItem it x with
    | .error m => .error m
    | .ok _ => checkItems it xs

/-- The `max_items` check and item loop of the list branch (models.py lines
293-302), reached when the `min_items` check did not raise. -/
def checkListMax (opts : Options) (xs : List JValue) : Except Msg Unit :=
  match opts.max_items with
  | some k => if (xs.length : Int) > k then .error (.atMostItems k) else checkItems opts.item_type xs
  | none => checkItems opts.item_type xs

/-- The list branch of `_validate_value` (models.py lines 282-304): list
check, `min_items`, `max_items`, then the per-item type loop. -/
def checkList (opts : Options) (value : JValue) : Except Msg Unit :=
  match value with
  | .jlist xs =>
    match opts.min_items with
    | some k => if (xs.length : Int) < k then .error (.atLeastItems k) else checkListMax opts xs
    | none => checkListMax opts xs
  | _ => .error .mustBeList

/-- `Entry._validate_value` (models.py lines 228-306): dispatch on the
field's type tag, in source order, with the defensive
"Unsupported field type." fallback. -/
def validate_value (f : FieldDefinition) (value : JValue) : Except Msg Unit :=
  let ft := f.field_type
  let opts := f.options
  if ft = "text" ∨ ft = "long_text" ∨ ft = "url" then
    if ¬ isStr value then .error .mustBeString else .ok ()
  else if ft = "boolean" then
    if ¬ isBool value then .error .mustBeBool else .ok ()
  else if ft = "number" then checkNumber opts value
  else if ft = "date" ∨ ft = "datetime" then
    if ¬ isStr value then .error .mustBeDateString else .ok ()
  else if ft = "select" then checkSelect opts value
  else if ft = "multi_select" then checkMultiSelect opts value
  else if ft = "list" then checkList opts value
  else .error .unsupportedType

/-- A schema: the ordered `FieldDefinition` rows of one `HobbyType`
(`list(self.hobby_type.fields.all())`). -/
abbrev Schema := List FieldDefinition

/-- `Entry.data`: a JSON object, modelled as an association list with the
dict's key-lookup semantics (first binding wins). -/
abbrev Record := List (String × JValue)

/-- The keys of `schema = {f.label: f for f in fields}` (models.py line
200): the validator indexes by `label`, not by `key`. -/
def labelsOf (fields : Schema) : List String := fields.map (·.label)

/-- `self.data.keys()`. -/
def recordKeys (data : Record) : List String := data.map (·.1)

/-- `sorted(set(self.data.keys()) - set(schema.keys()))` (models.py lines
203-205): the unknown record keys, deduplicated and sorted ascending. -/
def unknownSorted (fields : Schema) (data : Record) : List String :=
  sortKeys ((dedupKeys (recordKeys data)).filter (fun k => ¬ k ∈ labelsOf fields))

/-- `key in self.data and self.data.get(key) not in (None, "", [])`
(models.py line 212). -/
def presentIn (data : Record) (k : String) : Bool :=
  match data.lookup k with
  | some v => !(isAbsentValue v)
  | none => false

/-- The body of the per-field loop of `Entry.clean` (models.py lines
210-223) for one field: `some msg` when an entry `errors[key] = msg` is
recorded, `none` when the field contributes no error. -/
def fieldCheck (data : Record) (f : FieldDefinition) : Option Msg :=
  let key := f.label
  if f.required ∧ ¬ presentIn data key then some .required
  else if ¬ presentIn data key then none
  else
    match data.lookup key with
    | none => none
    | some v =>
      match validate_value f v with
      | .ok _ => none
      | .error m => some m

/-- Python dict assignment `errors[key] = msg`: replace an existing binding
in place, else append. -/
def dictInsert : List (String × Msg) → String → Msg → List (String × Msg)
  | [], k, v => [(k, v)]
  | (k0, v0) :: rest, k, v =>
    if k0 = k then (k0, v) :: rest else (k0, v0) :: dictInsert rest k v

/-- The `errors` dict accumulated by the per-field loop of `Entry.clean`
(models.py lines 208-223), keyed by `f.label`. -/
def field_errors (fields : Schema) (data : Record) : List (String × Msg) :=
  fields.foldl
    (fun errors f =>
      match fieldCheck data f with
      | some m => dictInsert errors f.label m
      | none => errors)
    []

/-- The observable outcome of one call to `Entry.clean` (models.py lines
189-226): it either returns normally with no output, raises
`ValidationError({"data": ...})` on unknown keys, or — when per-field
errors were recorded — merely `print`s `{"data": errors}` and returns
normally. -/
inductive CleanResult where
  | ok : CleanResult
  | raised : List (String × Msg) → CleanResult
  | logged : List (String × Msg) → CleanResult
deriving DecidableEq

/-- `Entry.clean` (models.py lines 189-226): build the label-keyed schema
map, raise on unknown keys, then run the per-field loop; a non-empty
`errors` dict is printed, not raised. -/
def clean (fields : Schema) (data : Record) : CleanResult :=
  if unknownSorted fields data ≠ [] then
    .raised [("data", .unknownFieldKeys (unknownSorted fields data))]
  else if field_errors fields data ≠ [] then .logged (field_errors fields data)
  else .ok

/-- The Accept/Reject outcome observed by the caller. -/
inductive ValidateResult where
  | accept : ValidateResult
  | reject : List (String × Msg) → ValidateResult
deriving DecidableEq

/-- `EntrySerializer.validate` (serializers.py lines 98-120): it calls
`entry.clean()` and converts a raised `ValidationError` into a rejection
carrying `e.message_dict`; a `clean` that returns normally (even after
printing per-field errors) is an acceptance. -/
def validate (fields : Schema) (data : Record) : ValidateResult :=
  match clean fields data with
  | .raised errs => .reject errs
  | _ => .accept

/-- State-passing form of `Entry.clean`: every statement of the source only
reads `self.hobby_type.fields` and `self.data` (list/set/dict construction,
`get`, comparisons); no statement assigns to either, so the schema and the
record pass through unchanged. -/
def cleanRun (fields : Schema) (data : Record) : CleanResult × Schema × Record :=
  (clean fields data, fields, data)

/-- Specification predicate for the item loop of the list branch: an element
conforms to `item_type` when the corresponding `isinstance` test passes
(`text` → string, `number` → numeric, `boolean` → boolean); tags outside
the three impose no constraint, exactly as the three guarded raises of
models.py lines 296-302. -/
def itemMatches (it : String) (x : JValue) : Bool :=
  (!(it == "text") || isStr x) &&
  (!(it == "number") || (toNum x).isSome) &&
  (!(it == "boolean") || isBool x)

/-! Concrete fixtures used by witnesses and counterexamples. -/

/-- A required text field, label = key = "title". -/
def exTitle : FieldDefinition :=
  { key := "title", label := "title", field_type := "text", required := true }

/-- A number field with the inclusive range 0..10 of the spec's examples. -/
def exRating : FieldDefinition :=
  { key := "rating", label := "rating", field_type := "number", required := false,
    options := { min := some 0, max := some 10 } }

/-- A required number field. -/
def exReqRating : FieldDefinition :=
  { key := "rating", label := "rating", field_type := "number", required := true,
    options := { min := some 0, max := some 10 } }

/-- A boolean field. -/
def exDone : FieldDefinition :=
  { key := "done", label := "done", field_type := "boolean", required := false }

/-- The spec's list-field example: numeric items, between 1 and 3 of them. -/
def exScores : FieldDefinition :=
  { key := "scores", label := "scores", field_type := "list", required := false,
    options := { item_type := "number", min_items := some 1, max_items := some 3 } }

/-- The spec's select-field example. -/
def exStatus : FieldDefinition :=
  { key := "status", label := "status", field_type := "select", required := false,
    options := { choices := ["to_watch", "watching", "watched"] } }

/-- A multi_select field with the same choices. -/
def exTags : FieldDefinition :=
  { key := "tags", label := "tags", field_type := "multi_select", required := false,
    options := { choices := ["to_watch", "watching", "watched"] } }

/-- A field whose label "display" differs from its key "k". -/
def exKeyed : FieldDefinition :=
  { key := "k", label := "display", field_type := "text", required := false }

/-- C2 counterexample schema: the first field's key "a" is the second
field's label, so a record entry under "a" is resolved to the second
field instead of being reported unknown. -/
def cxField : FieldDefinition :=
  { key := "a", label := "b", field_type := "text", required := false }

/-- Second field of the C2 counterexample schema: label "a" collides with
`cxField.key`. -/
def cxOther : FieldDefinition :=
  { key := "c", label := "a", field_type := "text", required := false }

/-- The C2 counterexample schema. -/
def cxSchema : Schema := [cxField, cxOther]

/-- The C2 counterexample record: one entry stored under `cxField.key`. -/
def cxRecord : Record := [("a", .jstr "x")]

/-- A required multi_select field. -/
def exReqTags : FieldDefinition :=
  { key := "tags", label := "tags", field_type := "multi_select", required := true,
    options := { choices := ["to_watch", "watching", "watched"] } }

/-- The spec's unknown-key example schema {"title", "rating"}. -/
def exMovieSchema : Schema := [exTitle, exRating]

/-- The spec's unknown-key example record with two unrecognized keys. -/
def exMovieRecord : Record :=
  [("title", .jstr "x"), ("rating", .jint 5), ("bogus", .jint 1), ("extra", .jint 2)]

/-! ### Helper lemmas about the key ordering and `sorted(set(...))` -/

theorem lexLe_total (as : List Char) : ∀ bs, lexLe as bs = true ∨ lexLe bs as = true := by
  induction as with
  | nil => intro bs; exact Or.inl rfl
  | cons a as ih =>
    intro bs
    cases bs with
    | nil => exact Or.inr rfl
    | cons b bs =>
      simp only [lexLe]
      rcases Nat.lt_trichotomy a.toNat b.toNat with h | h | h
      · left; simp [h]
      · have h2 : ¬ a.toNat < b.toNat := by omega
        have h3 : ¬ b.toNat < a.toNat := by omega
        rcases ih bs with h4 | h4
        · left; simp [h2, h3, h4]
        · right; simp [h2, h3, h4]
      · right; simp [h]

theorem lexLe_trans (as : List Char) :
    ∀ bs cs, lexLe as bs = true → lexLe bs cs = true → lexLe as cs = true := by
  induction as with
  | nil => intro bs cs _ _; rfl
  | cons a as ih =>
    intro bs cs h1 h2
    cases bs with
    | nil => simp [lexLe] at h1
    | cons b bs =>
      cases cs with
      | nil => simp [lexLe] at h2
      | cons c cs =>
        simp only [lexLe] at h1 h2 ⊢
        split_ifs at h1 with hab hba <;> split_ifs at h2 with hbc hcb <;>
          split_ifs with hac hca <;>
          first
            | rfl
            | exact ih bs cs h1 h2
            | (exfalso; omega)

theorem strLe_total (a b : String) : strLe a b = true ∨ strLe b a = true :=
  lexLe_total a.data b.data

theorem strLe_trans {a b c : String} (h1 : strLe a b = true) (h2 : strLe b c = true) :
    strLe a c = true :=
  lexLe_trans a.data b.data c.data h1 h2

theorem mem_insortKey (s a : String) (l : List String) :
    a ∈ insortKey s l ↔ a = s ∨ a ∈ l := by
  induction l with
  | nil => simp [insortKey]
  | cons t ts ih =>
    by_cases h : strLe s t = true
    · simp [insortKey, h]
    · simp only [insortKey, if_neg h, List.mem_cons, ih]
      tauto

theorem mem_sortKeys (a : String) (l : List String) : a ∈ sortKeys l ↔ a ∈ l := by
  induction l with
  | nil => simp [sortKeys]
  | cons s ss ih => simp [sortKeys, mem_insortKey, ih]

theorem sorted_insortKey (s : String) (l : List String)
    (h : l.Sorted (fun a b => strLe a b = true)) :
    (insortKey s l).Sorted (fun a b => strLe a b = true) := by
  induction l with
  | nil => simp [insortKey]
  | cons t ts ih =>
    rw [List.sorted_cons] at h
    obtain ⟨ht, hts⟩ := h
    by_cases hst : strLe s t = true
    · rw [insortKey, if_pos hst]
      refine List.sorted_cons.mpr ⟨?_, List.sorted_cons.mpr ⟨ht, hts⟩⟩
      intro b hb
      rcases List.mem_cons.mp hb with rfl | hb
      · exact hst
      · exact strLe_trans hst (ht b hb)
    · rw [insortKey, if_neg hst]
      refine List.sorted_cons.mpr ⟨?_, ih hts⟩
      intro b hb
      rcases (mem_insortKey s b ts).mp hb with rfl | hb
      · rcases strLe_total b t with h | h
        · exact absurd h hst
        · exact h
      · exact ht b hb

theorem sorted_sortKeys (l : List String) :
    (sortKeys l).Sorted (fun a b => strLe a b = true) := by
  induction l with
  | nil => simp [sortKeys]
  | cons s ss ih => exact sorted_insortKey s (sortKeys ss) ih

theorem mem_dedupKeys (a : String) (l : List String) : a ∈ dedupKeys l ↔ a ∈ l := by
  induction l with
  | nil => simp [dedupKeys]
  | cons k ks ih =>
    by_cases h : k ∈ ks
    · rw [dedupKeys, if_pos h, ih]
      constructor
      · exact fun hm => List.mem_cons_of_mem _ hm
      · intro hm
        rcases List.mem_cons.mp hm with rfl | hm
        · exact h
        · exact hm
    · rw [dedupKeys, if_neg h]
      simp [ih]

theorem mem_unknownSorted (fields : Schema) (data : Record) (k : String) :
    k ∈ unknownSorted fields data ↔ k ∈ recordKeys data ∧ ¬ k ∈ labelsOf fields := by
  simp [unknownSorted, mem_sortKeys, List.mem_filter, mem_dedupKeys]

/-! ### Helper lemmas about the per-field error dict -/

theorem mem_dictInsert (m : List (String × Msg)) (k : String) (v : Msg)
    (p : String × Msg) (hp : p ∈ dictInsert m k v) : p.1 = k ∨ p ∈ m := by
  induction m with
  | nil =>
    rw [dictInsert, List.mem_singleton] at hp
    subst hp
    exact Or.inl rfl
  | cons q m ih =>
    obtain ⟨k0, v0⟩ := q
    rw [dictInsert] at hp
    split_ifs at hp with h
    · rcases List.mem_cons.mp hp with rfl | hp
      · exact Or.inl h
      · exact Or.inr (List.mem_cons_of_mem _ hp)
    · rcases List.mem_cons.mp hp with rfl | hp
      · exact Or.inr (List.mem_cons_self _ _)
      · rcases ih hp with h1 | h1
        · exact Or.inl h1
        · exact Or.inr (List.mem_cons_of_mem _ h1)

theorem mem_field_errors_foldl (data : Record) (fs : List FieldDefinition) :
    ∀ (acc : List (String × Msg)) (p : String × Msg),
      p ∈ fs.foldl
        (fun errors f =>
          match fieldCheck data f with
          | some m => dictInsert errors f.label m
          | none => errors) acc →
      p ∈ acc ∨ p.1 ∈ fs.map (·.label) := by
  induction fs with
  | nil => intro acc p hp; exact Or.inl hp
  | cons f fs ih =>
    intro acc p hp
    rw [List.foldl_cons] at hp
    rcases ih _ p hp with h | h
    · cases hfc : fieldCheck data f with
      | some m =>
        rw [hfc] at h
        rcases mem_dictInsert _ _ _ _ h with h1 | h1
        · right; simp [h1]
        · exact Or.inl h1
      | none => rw [hfc] at h; exact Or.inl h
    · right; simp [h]

theorem field_errors_key_mem (fields : Schema) (data : Record) :
    ∀ p ∈ field_errors fields data, p.1 ∈ labelsOf fields := by
  intro p hp
  rcases mem_field_errors_foldl data fields [] p hp with h | h
  · cases h
  · exact h

/-! ### Helper lemmas about the per-type checkers and the dispatch -/

theorem checkItem_ok_iff (it : String) (x : JValue) :
    checkItem it x = .ok () ↔ itemMatches it x = true := by
  unfold checkItem itemMatches
  split_ifs with h1 h2 h3
  · obtain ⟨rfl, hx⟩ := h1
    simp_all
  · obtain ⟨rfl, hx⟩ := h2
    simp_all
  · obtain ⟨rfl, hx⟩ := h3
    simp_all
  · push_neg at h1 h2 h3
    constructor
    · intro _
      by_cases ht : it == "text" <;> by_cases hn : it == "number" <;>
        by_cases hb : it == "boolean" <;>
        simp_all [Option.isSome_iff_ne_none, Option.isNone_iff_eq_none]
    · intro _; rfl

theorem checkItems_cons_err (it : String) (x : JValue) (xs : List JValue) (m : Msg)
    (hx : checkItem it x = .error m) : checkItems it (x :: xs) = .error m := by
  simp only [checkItems, hx]

theorem checkItems_cons_ok (it : String) (x : JValue) (xs : List JValue)
    (hx : checkItem it x = .ok ()) : checkItems it (x :: xs) = checkItems it xs := by
  simp only [checkItems, hx]

theorem checkItems_ok_iff (it : String) (xs : List JValue) :
    checkItems it xs = .ok () ↔ ∀ x ∈ xs, itemMatches it x = true := by
  induction xs with
  | nil => simp [checkItems]
  | cons x xs ih =>
    cases hx : checkItem it x with
    | error m =>
      rw [checkItems_cons_err it x xs m hx]
      constructor
      · intro h; cases h
      · intro h
        have h2 := (checkItem_ok_iff it x).mpr (h x (List.mem_cons_self x xs))
        rw [hx] at h2
        cases h2
    | ok u =>
      cases u
      rw [checkItems_cons_ok it x xs hx, ih]
      constructor
      · intro h y hy
        rcases List.mem_cons.mp hy with rfl | hy
        · exact (checkItem_ok_iff it y).mp hx
        · exact h y hy
      · intro h y hy
        exact h y (List.mem_cons_of_mem _ hy)

theorem checkNumMax_ok_iff (opts : Options) (q : ℚ) :
    checkNumMax opts q = .ok () ↔ ∀ M, opts.max = some M → q ≤ M := by
  cases hM : opts.max with
  | some maxv =>
    simp only [checkNumMax, hM]
    by_cases h : q > maxv
    · rw [if_pos h]
      constructor
      · intro hh; cases hh
      · intro h2; exact absurd (h2 maxv rfl) (not_le.mpr h)
    · rw [if_neg h]
      constructor
      · intro _ M hM2
        cases hM2
        exact not_lt.mp h
      · intro _; rfl
  | none =>
    simp only [checkNumMax, hM]
    constructor
    · intro _ M hM2; cases hM2
    · intro _; trivial

theorem checkNumber_ok_iff (opts : Options) (v : JValue) (q : ℚ) (hv : toNum v = some q) :
    checkNumber opts v = .ok () ↔
      (∀ m, opts.min = some m → m ≤ q) ∧ (∀ M, opts.max = some M → q ≤ M) := by
  cases hm : opts.min with
  | some minv =>
    simp only [checkNumber, hv, hm]
    by_cases h : q < minv
    · rw [if_pos h]
      constructor
      · intro hh; cases hh
      · rintro ⟨h1, _⟩
        exact absurd (h1 minv rfl) (not_le.mpr h)
    · rw [if_neg h, checkNumMax_ok_iff]
      constructor
      · intro h2
        refine ⟨fun m hm2 => ?_, h2⟩
        cases hm2
        exact not_lt.mp h
      · exact fun h2 => h2.2
  | none =>
    simp only [checkNumber, hv, hm]
    rw [checkNumMax_ok_iff]
    constructor
    · intro h2
      exact ⟨fun m hm2 => Option.noConfusion hm2, h2⟩
    · exact fun h2 => h2.2

theorem checkNumber_min_error (opts : Options) (v : JValue) (q minv : ℚ)
    (hv : toNum v = some q) (hm : opts.min = some minv) (h : q < minv) :
    checkNumber opts v = .error (.geMin minv) := by
  simp only [checkNumber, hv, hm]
  rw [if_pos h]

theorem checkNumber_max_error (opts : Options) (v : JValue) (q maxv : ℚ)
    (hv : toNum v = some q) (hM : opts.max = some maxv)
    (hmin : ∀ m, opts.min = some m → m ≤ q) (h : maxv < q) :
    checkNumber opts v = .error (.leMax maxv) := by
  cases hm : opts.min with
  | some minv =>
    simp only [checkNumber, hv, hm]
    rw [if_neg (not_lt.mpr (hmin minv hm))]
    simp only [checkNumMax, hM]
    rw [if_pos h]
  | none =>
    simp only [checkNumber, hv, hm, checkNumMax, hM]
    rw [if_pos h]

theorem checkNumber_not_numeric (opts : Options) (v : JValue) (hv : toNum v = none) :
    checkNumber opts v = .error .mustBeNumber := by
  simp only [checkNumber, hv]

theorem checkNumMax_ne_mustBeNumber (opts : Options) (q : ℚ) :
    checkNumMax opts q ≠ .error .mustBeNumber := by
  cases hM : opts.max with
  | some maxv =>
    simp only [checkNumMax, hM]
    split_ifs with h
    · intro hh; cases hh
    · intro hh; cases hh
  | none =>
    simp only [checkNumMax, hM]
    intro hh; cases hh

theorem checkNumber_ne_mustBeNumber (opts : Options) (v : JValue) (q : ℚ)
    (hv : toNum v = some q) : checkNumber opts v ≠ .error .mustBeNumber := by
  cases hm : opts.min with
  | some minv =>
    simp only [checkNumber, hv, hm]
    split_ifs with h
    · intro hh; cases hh
    · exact checkNumMax_ne_mustBeNumber opts q
  | none =>
    simp only [checkNumber, hv, hm]
    exact checkNumMax_ne_mustBeNumber opts q

theorem checkSelect_ok_iff (opts : Options) (v : JValue) :
    checkSelect opts v = .ok () ↔
      ∃ s, v = .jstr s ∧ (opts.choices = [] ∨ s ∈ opts.choices) := by
  cases v with
  | jstr s =>
    simp only [checkSelect]
    by_cases h : opts.choices ≠ [] ∧ ¬ opts.choices.contains s = true
    · rw [if_pos h]
      constructor
      · intro hh; cases hh
      · rintro ⟨t, ht, hc⟩
        injection ht with ht2
        subst ht2
        rcases hc with hc | hc
        · exact (h.1 hc).elim
        · exact (h.2 (by simpa using hc)).elim
    · rw [if_neg h]
      push_neg at h
      constructor
      · intro _
        refine ⟨s, rfl, ?_⟩
        by_cases hc : opts.choices = []
        · exact Or.inl hc
        · exact Or.inr (by simpa using h hc)
      · intro _; rfl
  | null => simp [checkSelect]
  | jint n => simp [checkSelect]
  | jfloat q => simp [checkSelect]
  | jbool b => simp [checkSelect]
  | jlist l => simp [checkSelect]

theorem checkSelect_invalid (opts : Options) (s : String)
    (hne : opts.choices ≠ []) (hns : ¬ s ∈ opts.choices) :
    checkSelect opts (.jstr s) = .error .invalidChoice := by
  simp only [checkSelect]
  rw [if_pos ⟨hne, by simpa using hns⟩]

theorem checkSelect_not_str (opts : Options) (v : JValue)
    (h : ∀ s, v ≠ .jstr s) : checkSelect opts v = .error .mustBeString := by
  cases v <;> first | rfl | exact absurd rfl (h _)

theorem checkMultiSelect_ok_iff (opts : Options) (v : JValue) :
    checkMultiSelect opts v = .ok () ↔
      ∃ xs, v = .jlist xs ∧
        ∀ x ∈ xs, ∃ s, x = .jstr s ∧ (opts.choices = [] ∨ s ∈ opts.choices) := by
  cases v with
  | jlist xs =>
    simp only [checkMultiSelect]
    by_cases hall : xs.all isStr = true
    · rw [if_neg (by simp [hall])]
      by_cases hc : opts.choices ≠ [] ∧ xs.any (fun x => !(inChoices opts.choices x)) = true
      · rw [if_pos hc]
        obtain ⟨hne, hany⟩ := hc
        rw [List.any_eq_true] at hany
        obtain ⟨x, hx, hbx⟩ := hany
        constructor
        · intro hh; cases hh
        · rintro ⟨ys, hys, hmem⟩
          injection hys with h2
          subst h2
          obtain ⟨s, rfl, hcs⟩ := hmem x hx
          rcases hcs with hcs | hcs
          · exact (hne hcs).elim
          · rw [Bool.not_eq_true'] at hbx
            simp [inChoices] at hbx
            exact (hbx hcs).elim
      · rw [if_neg hc]
        push_neg at hc
        constructor
        · intro _
          refine ⟨xs, rfl, fun x hx => ?_⟩
          have hsx := (List.all_eq_true.mp hall) x hx
          cases x with
          | jstr s =>
            refine ⟨s, rfl, ?_⟩
            by_cases hce : opts.choices = []
            · exact Or.inl hce
            · have hna := hc hce
              simp only [ne_eq, List.any_eq_true] at hna
              push_neg at hna
              have hin := hna (.jstr s) hx
              simp only [Bool.not_eq_true, Bool.not_eq_false] at hin
              exact Or.inr (by simpa [inChoices] using hin)
          | null => cases hsx
          | jint n => cases hsx
          | jfloat q => cases hsx
          | jbool b => cases hsx
          | jlist l => cases hsx
        · intro _; rfl
    · rw [if_pos (by simp [hall])]
      constructor
      · intro hh; cases hh
      · rintro ⟨ys, hys, hmem⟩
        injection hys with h2
        subst h2
        refine absurd (List.all_eq_true.mpr fun x hx => ?_) hall
        obtain ⟨s, rfl, _⟩ := hmem x hx
        rfl
  | null => simp [checkMultiSelect]
  | jstr s => simp [checkMultiSelect]
  | jint n => simp [checkMultiSelect]
  | jfloat q => simp [checkMultiSelect]
  | jbool b => simp [checkMultiSelect]

theorem checkListMax_ok_iff (opts : Options) (xs : List JValue) :
    checkListMax opts xs = .ok () ↔
      (∀ k, opts.max_items = some k → (xs.length : Int) ≤ k) ∧
      (∀ x ∈ xs, itemMatches opts.item_type x = true) := by
  cases hM : opts.max_items with
  | some k =>
    simp only [checkListMax, hM]
    by_cases h : (xs.length : Int) > k
    · rw [if_pos h]
      constructor
      · intro hh; cases hh
      · rintro ⟨h1, _⟩
        exact absurd (h1 k rfl) (not_le.mpr h)
    · rw [if_neg h, checkItems_ok_iff]
      constructor
      · intro h2
        refine ⟨fun j hj => ?_, h2⟩
        cases hj
        exact not_lt.mp h
      · exact fun h2 => h2.2
  | none =>
    simp only [checkListMax, hM]
    rw [checkItems_ok_iff]
    constructor
    · intro h2
      exact ⟨fun j hj => Option.noConfusion hj, h2⟩
    · exact fun h2 => h2.2

theorem checkList_ok_iff (opts : Options) (xs : List JValue) :
    checkList opts (.jlist xs) = .ok () ↔
      (∀ k, opts.min_items = some k → k ≤ (xs.length : Int)) ∧
      (∀ k, opts.max_items = some k → (xs.length : Int) ≤ k) ∧
      (∀ x ∈ xs, itemMatches opts.item_type x = true) := by
  cases hm : opts.min_items with
  | some k =>
    simp only [checkList, hm]
    by_cases h : (xs.length : Int) < k
    · rw [if_pos h]
      constructor
      · intro hh; cases hh
      · rintro ⟨h1, _⟩
        exact absurd (h1 k rfl) (not_le.mpr h)
    · rw [if_neg h, checkListMax_ok_iff]
      constructor
      · intro h2
        refine ⟨fun j hj => ?_, h2.1, h2.2⟩
        cases hj
        exact not_lt.mp h
      · exact fun h2 => ⟨h2.2.1, h2.2.2⟩
  | none =>
    simp only [checkList, hm]
    rw [checkListMax_ok_iff]
    constructor
    · intro h2
      exact ⟨fun j hj => Option.noConfusion hj, h2.1, h2.2⟩
    · exact fun h2 => ⟨h2.2.1, h2.2.2⟩

theorem checkList_min_error (opts : Options) (xs : List JValue) (k : Int)
    (hmin : opts.min_items = some k) (h : (xs.length : Int) < k) :
    checkList opts (.jlist xs) = .error (.atLeastItems k) := by
  simp only [checkList, hmin]
  rw [if_pos h]

theorem checkList_not_list (opts : Options) (v : JValue)
    (h : ∀ xs, v ≠ .jlist xs) : checkList opts v = .error .mustBeList := by
  cases v <;> first | rfl | exact absurd rfl (h _)

theorem validate_value_number (f : FieldDefinition) (hft : f.field_type = "number")
    (v : JValue) : validate_value f v = checkNumber f.options v := by
  simp [validate_value, hft]

theorem validate_value_boolean (f : FieldDefinition) (hft : f.field_type = "boolean")
    (v : JValue) :
    validate_value f v = if ¬ isBool v = true then .error .mustBeBool else .ok () := by
  simp [validate_value, hft]

theorem validate_value_select (f : FieldDefinition) (hft : f.field_type = "select")
    (v : JValue) : validate_value f v = checkSelect f.options v := by
  simp [validate_value, hft]

theorem validate_value_multiselect (f : FieldDefinition)
    (hft : f.field_type = "multi_select") (v : JValue) :
    validate_value f v = checkMultiSelect f.options v := by
  simp [validate_value, hft]

theorem validate_value_list (f : FieldDefinition) (hft : f.field_type = "list")
    (v : JValue) : validate_value f v = checkList f.options v := by
  simp [validate_value, hft]

theorem isAbsentValue_false_iff (v : JValue) :
    isAbsentValue v = false ↔ v ≠ .null ∧ v ≠ .jstr "" ∧ v ≠ .jlist [] := by
  cases v with
  | null => simp [isAbsentValue]
  | jstr s => simp [isAbsentValue]
  | jint n => simp [isAbsentValue]
  | jfloat q => simp [isAbsentValue]
  | jbool b => simp [isAbsentValue]
  | jlist xs => simp [isAbsentValue, List.isEmpty_iff]

/-! ### The claims -/

/-- C1 (code_bug evidence): a record missing a required field produces the
per-field error dict `{"title": "This field is required."}`, but
`Entry.clean` only prints it (`CleanResult.logged`) instead of raising, so
the caller-visible outcome is Accept, contradicting the spec's
"the overall result is Reject" and its propagation policy; moreover when
unknown keys and per-field violations both occur, `clean` raises the
unknown-keys error alone before the per-field loop runs, so nothing is
merged. -/
theorem required_error_logged_not_raised :
    field_errors [exTitle] [] = [("title", .required)] ∧
    clean [exTitle] [] = .logged [("title", .required)] ∧
    validate [exTitle] [] = .accept ∧
    clean [exTitle] [("bogus", .jint 1)] =
      .raised [("data", .unknownFieldKeys ["bogus"])] := by
  refine ⟨by decide, by decide, by decide, by decide⟩

/-- C2 counterexample: the claim's universal consequence fails when a
field's key coincides with another field's label.  In `cxSchema`, the
field `cxField` has key "a" ≠ label "b", the record stores an entry under
"a", yet "a" is not reported unknown — validation resolves it to the other
field (whose label is "a") and accepts. -/
theorem label_indexing_counterexample :
    cxField ∈ cxSchema ∧ cxField.label ≠ cxField.key ∧
    cxField.key ∈ recordKeys cxRecord ∧
    ¬ cxField.key ∈ unknownSorted cxSchema cxRecord ∧
    clean cxSchema cxRecord = .ok := by
  refine ⟨by decide, by decide, by decide, by decide, by decide⟩

/-- C2 (amended): the validator is keyed by labels — error-mapping slots
are labels, and a record entry stored under a field's key is treated as an
unknown key whenever that key differs from the field's label and is not
the label of any schema field. -/
theorem label_indexing (fields : Schema) (data : Record) (f : FieldDefinition)
    (hf : f ∈ fields) (hne : f.label ≠ f.key)
    (hnl : ¬ f.key ∈ labelsOf fields) (hmem : f.key ∈ recordKeys data) :
    (∀ p ∈ field_errors fields data, p.1 ∈ labelsOf fields) ∧
    f.key ∈ unknownSorted fields data ∧
    clean fields data =
      .raised [("data", .unknownFieldKeys (unknownSorted fields data))] := by
  have hk : f.key ∈ unknownSorted fields data :=
    (mem_unknownSorted fields data f.key).mpr ⟨hmem, hnl⟩
  refine ⟨field_errors_key_mem fields data, hk, ?_⟩
  have hne2 : unknownSorted fields data ≠ [] := by
    intro h0
    rw [h0] at hk
    cases hk
  unfold clean
  rw [if_pos hne2]

/-- C2 witness: instantiating the amended claim at the field with key "k",
label "display", and a record holding an entry under "k". -/
theorem label_indexing_witness :
    "k" ∈ unknownSorted [exKeyed] [("k", .jint 1)] ∧
    clean [exKeyed] [("k", .jint 1)] =
      .raised [("data", .unknownFieldKeys (unknownSorted [exKeyed] [("k", .jint 1)]))] := by
  have h := label_indexing [exKeyed] [("k", .jint 1)] exKeyed (by decide) (by decide)
    (by decide) (by decide)
  exact ⟨h.2.1, h.2.2⟩

/-- C3: when the record holds keys the schema does not recognize, the
outcome is a rejection with the single aggregate entry under the fixed
"data" slot, and the listed keys are exactly the unknown record keys,
sorted ascending. -/
theorem unknown_key_aggregation (fields : Schema) (data : Record)
    (h : unknownSorted fields data ≠ []) :
    validate fields data =
      .reject [("data", .unknownFieldKeys (unknownSorted fields data))] ∧
    (unknownSorted fields data).Sorted (fun a b => strLe a b = true) ∧
    (∀ k, k ∈ unknownSorted fields data ↔
      k ∈ recordKeys data ∧ ¬ k ∈ labelsOf fields) := by
  refine ⟨?_, ?_, fun k => mem_unknownSorted fields data k⟩
  · have hc : clean fields data =
        .raised [("data", .unknownFieldKeys (unknownSorted fields data))] := by
      unfold clean
      rw [if_pos h]
    unfold validate
    rw [hc]
  · unfold unknownSorted
    exact sorted_sortKeys _

/-- C3 witness: the spec's example — schema {"title", "rating"}, record
with extra keys "bogus" and "extra" — rejects with the one aggregate entry
listing ["bogus", "extra"] in ascending order. -/
theorem unknown_key_aggregation_witness :
    validate exMovieSchema exMovieRecord =
      .reject [("data", .unknownFieldKeys ["bogus", "extra"])] := by
  have h := (unknown_key_aggregation exMovieSchema exMovieRecord (by decide)).1
  rw [show unknownSorted exMovieSchema exMovieRecord = ["bogus", "extra"] by decide] at h
  exact h

/-- C4: a value is present iff its identifier is a record key bound to a
value outside the empty sentinels {null, "", []}; a required field that is
not present records "This field is required." for its identifier, and the
per-field step performs no further check on it. -/
theorem presence_and_required (data : Record) (k : String) (f : FieldDefinition) :
    (presentIn data k = true ↔
      ∃ v, data.lookup k = some v ∧ v ≠ .null ∧ v ≠ .jstr "" ∧ v ≠ .jlist []) ∧
    (f.required = true → presentIn data f.label = false →
      fieldCheck data f = some .required) := by
  constructor
  · unfold presentIn
    cases hl : data.lookup k with
    | none =>
      constructor
      · intro h; cases h
      · rintro ⟨v, hv, _⟩
        cases hv
    | some v =>
      rw [Bool.not_eq_true', isAbsentValue_false_iff]
      constructor
      · intro h
        exact ⟨v, rfl, h.1, h.2.1, h.2.2⟩
      · rintro ⟨w, hw, h1, h2, h3⟩
        injection hw with hw2
        subst hw2
        exact ⟨h1, h2, h3⟩
  · intro hreq hnp
    simp only [fieldCheck]
    rw [if_pos ⟨hreq, by simp [hnp]⟩]

/-- C4 witness: 0 is present for a required numeric field, while null and
the empty list trigger the required-field error. -/
theorem presence_and_required_witness :
    presentIn [("rating", JValue.jint 0)] "rating" = true ∧
    fieldCheck [("rating", JValue.null)] exReqRating = some .required ∧
    fieldCheck [("tags", JValue.jlist [])] exReqTags = some .required := by
  refine ⟨?_, ?_, ?_⟩
  · exact (presence_and_required [("rating", .jint 0)] "rating" exReqRating).1.mpr
      ⟨.jint 0, rfl, nofun, nofun, nofun⟩
  · exact (presence_and_required [("rating", .null)] "rating" exReqRating).2 rfl (by decide)
  · exact (presence_and_required [("tags", .jlist [])] "tags" exReqTags).2 rfl (by decide)

/-- C5: validation always terminates in exactly one of Accept or Reject,
and a rejection's error-mapping keys lie inside {"data"} ∪ keys of the
schema's fields. -/
theorem validate_completeness (fields : Schema) (data : Record) :
    (validate fields data = .accept ∨ ∃ errs, validate fields data = .reject errs) ∧
    (∀ errs, validate fields data = .reject errs →
      ∀ p ∈ errs, p.1 = "data" ∨ p.1 ∈ fields.map (·.key)) := by
  constructor
  · unfold validate
    cases clean fields data with
    | ok => exact Or.inl rfl
    | raised errs => exact Or.inr ⟨errs, rfl⟩
    | logged errs => exact Or.inl rfl
  · intro errs herrs p hp
    unfold validate at herrs
    cases hc : clean fields data with
    | ok => rw [hc] at herrs; cases herrs
    | logged e => rw [hc] at herrs; cases herrs
    | raised e =>
      rw [hc] at herrs
      injection herrs with he
      subst he
      unfold clean at hc
      split_ifs at hc with hu hl
      · injection hc with hc2
        rw [← hc2, List.mem_singleton] at hp
        subst hp
        exact Or.inl rfl

/-- C5 witness: a rejection for an unknown key carries exactly the "data"
slot. -/
theorem validate_completeness_witness :
    (("data", Msg.unknownFieldKeys ["bogus"]) : String × Msg).1 = "data" ∨
    (("data", Msg.unknownFieldKeys ["bogus"]) : String × Msg).1 ∈
      [exTitle].map (·.key) :=
  (validate_completeness [exTitle] [("bogus", .jint 1)]).2
    [("data", .unknownFieldKeys ["bogus"])] (by decide)
    ("data", .unknownFieldKeys ["bogus"]) (by decide)

/-- C9: validation is deterministic and mutates neither the schema nor the
record: the state-passing form returns its inputs unchanged, and a second
run on the returned state yields the first run's result. -/
theorem validation_pure (fields : Schema) (data : Record) :
    (cleanRun fields data).2 = (fields, data) ∧
    (cleanRun (cleanRun fields data).2.1 (cleanRun fields data).2.2).1 =
      (cleanRun fields data).1 :=
  ⟨rfl, rfl⟩

/-- C6: for a number field, a present numeric value is accepted iff it
meets the inclusive min/max bounds; a below-min (resp. above-max) value is
rejected with the corresponding range-violation message, and a present
non-numeric value is rejected as a type mismatch. -/
theorem number_range_inclusive (f : FieldDefinition) (hft : f.field_type = "number") :
    (∀ v q, toNum v = some q →
      ((validate_value f v = .ok ()) ↔
        (∀ m, f.options.min = some m → m ≤ q) ∧
        (∀ M, f.options.max = some M → q ≤ M)) ∧
      (∀ m, f.options.min = some m → q < m →
        validate_value f v = .error (.geMin m)) ∧
      (∀ M, f.options.max = some M → (∀ m, f.options.min = some m → m ≤ q) →
        M < q → validate_value f v = .error (.leMax M))) ∧
    (∀ v, toNum v = none → validate_value f v = .error .mustBeNumber) := by
  constructor
  · intro v q hv
    rw [validate_value_number f hft v]
    exact ⟨checkNumber_ok_iff f.options v q hv,
      fun m hm h => checkNumber_min_error f.options v q m hv hm h,
      fun M hM hmin h => checkNumber_max_error f.options v q M hv hM hmin h⟩
  · intro v hv
    rw [validate_value_number f hft v]
    exact checkNumber_not_numeric f.options v hv

/-- C6 witness: the spec's boundary cases on min=0, max=10 — 0 and 10 are
accepted, -0.01 and 10.01 rejected with range violations, and a string is
a type mismatch. -/
theorem number_range_inclusive_witness :
    validate_value exRating (.jint 0) = .ok () ∧
    validate_value exRating (.jint 10) = .ok () ∧
    validate_value exRating (.jfloat (Rat.divInt (-1) 100)) = .error (.geMin 0) ∧
    validate_value exRating (.jfloat (Rat.divInt 1001 100)) = .error (.leMax 10) ∧
    validate_value exRating (.jstr "x") = .error .mustBeNumber := by
  have h := number_range_inclusive exRating rfl
  refine ⟨by decide, by decide, ?_, ?_, ?_⟩
  · exact (h.1 (.jfloat (Rat.divInt (-1) 100)) (Rat.divInt (-1) 100) rfl).2.1
      0 rfl (by decide)
  · exact (h.1 (.jfloat (Rat.divInt 1001 100)) (Rat.divInt 1001 100) rfl).2.2
      10 rfl (fun m hm => by injection hm with h2; subst h2; decide) (by decide)
  · exact h.2 (.jstr "x") rfl

/-- C7: for a list field, a non-list value is a type mismatch; a list is
accepted iff its length meets the inclusive min_items/max_items bounds and
every element matches the declared item_type (text being the default); a
too-short list yields the corresponding length error. -/
theorem list_field_constraints (f : FieldDefinition) (hft : f.field_type = "list") :
    (∀ v, (∀ xs, v ≠ .jlist xs) → validate_value f v = .error .mustBeList) ∧
    (∀ xs, validate_value f (.jlist xs) = .ok () ↔
      ((∀ k, f.options.min_items = some k → k ≤ (xs.length : Int)) ∧
       (∀ k, f.options.max_items = some k → (xs.length : Int) ≤ k) ∧
       (∀ x ∈ xs, itemMatches f.options.item_type x = true))) ∧
    (∀ xs k, f.options.min_items = some k → (xs.length : Int) < k →
      validate_value f (.jlist xs) = .error (.atLeastItems k)) := by
  refine ⟨fun v hv => ?_, fun xs => ?_, fun xs k hk hlen => ?_⟩
  · rw [validate_value_list f hft v]
    exact checkList_not_list f.options v hv
  · rw [validate_value_list f hft (.jlist xs)]
    exact checkList_ok_iff f.options xs
  · rw [validate_value_list f hft (.jlist xs)]
    exact checkList_min_error f.options xs k hk hlen

/-- C7 witness: the spec's examples for item_type=number, min_items=1,
max_items=3 — [1,2] accepted, [] a length violation, ["a"] an item type
mismatch. -/
theorem list_field_constraints_witness :
    validate_value exScores (.jlist [.jint 1, .jint 2]) = .ok () ∧
    validate_value exScores (.jlist []) = .error (.atLeastItems 1) ∧
    validate_value exScores (.jlist [.jstr "a"]) = .error .itemsNumbers := by
  have h := list_field_constraints exScores rfl
  refine ⟨?_, ?_, by decide⟩
  · exact (h.2.1 [.jint 1, .jint 2]).mpr
      ⟨fun k hk => by injection hk with h2; subst h2; decide,
       fun k hk => by injection hk with h2; subst h2; decide,
       by decide⟩
  · exact h.2.2 [] 1 rfl (by decide)

/-- C8: a select value is accepted iff it is a string that is a member of
choices (or choices is empty); non-strings are a type mismatch and
non-members of a non-empty choices list an invalid choice; a multi_select
value is accepted iff it is a list whose every element is a string that is
a member of choices (or choices is empty). -/
theorem choice_enforcement (f : FieldDefinition) :
    (f.field_type = "select" →
      (∀ v, validate_value f v = .ok () ↔
        ∃ s, v = .jstr s ∧ (f.options.choices = [] ∨ s ∈ f.options.choices)) ∧
      (∀ v, (∀ s, v ≠ .jstr s) → validate_value f v = .error .mustBeString) ∧
      (∀ s, f.options.choices ≠ [] → ¬ s ∈ f.options.choices →
        validate_value f (.jstr s) = .error .invalidChoice)) ∧
    (f.field_type = "multi_select" →
      ∀ v, validate_value f v = .ok () ↔
        ∃ xs, v = .jlist xs ∧
          ∀ x ∈ xs, ∃ s, x = .jstr s ∧
            (f.options.choices = [] ∨ s ∈ f.options.choices)) := by
  constructor
  · intro hft
    refine ⟨fun v => ?_, fun v hv => ?_, fun s hne hns => ?_⟩
    · rw [validate_value_select f hft v]
      exact checkSelect_ok_iff f.options v
    · rw [validate_value_select f hft v]
      exact checkSelect_not_str f.options v hv
    · rw [validate_value_select f hft (.jstr s)]
      exact checkSelect_invalid f.options s hne hns
  · intro hft v
    rw [validate_value_multiselect f hft v]
    exact checkMultiSelect_ok_iff f.options v

/-- C8 witness: with choices [to_watch, watching, watched], "watching" is
accepted, "paused" rejected as invalid choice, a number rejected as a type
mismatch, and a multi_select list of members accepted. -/
theorem choice_enforcement_witness :
    validate_value exStatus (.jstr "watching") = .ok () ∧
    validate_value exStatus (.jstr "paused") = .error .invalidChoice ∧
    validate_value exStatus (.jint 3) = .error .mustBeString ∧
    validate_value exTags (.jlist [.jstr "watching"]) = .ok () := by
  have h := choice_enforcement exStatus
  have h2 := choice_enforcement exTags
  refine ⟨?_, ?_, ?_, ?_⟩
  · exact ((h.1 rfl).1 (.jstr "watching")).mpr ⟨"watching", rfl, Or.inr (by decide)⟩
  · exact (h.1 rfl).2.2 "paused" (by decide) (by decide)
  · exact (h.1 rfl).2.1 (.jint 3) nofun
  · refine (h2.2 rfl (.jlist [.jstr "watching"])).mpr ⟨[.jstr "watching"], rfl, ?_⟩
    intro x hx
    rw [List.mem_singleton] at hx
    subst hx
    exact ⟨"watching", rfl, Or.inr (by decide)⟩

/-- C10: a boolean passes the number branch's numeric type check — Python
bool being a subtype of int — and is range-checked as 1/0, never rejected
as "Must be a number."; the boolean branch itself accepts only exact
booleans. -/
theorem boolean_passes_number_check (f : FieldDefinition)
    (hft : f.field_type = "number") (b : Bool) :
    toNum (.jbool b) = some (if b then (1 : ℚ) else 0) ∧
    validate_value f (.jbool b) =
      validate_value f (.jint (if b then 1 else 0)) ∧
    validate_value f (.jbool b) ≠ .error .mustBeNumber ∧
    (∀ g : FieldDefinition, g.field_type = "boolean" → ∀ v, isBool v = false →
      validate_value g v = .error .mustBeBool) := by
  refine ⟨rfl, ?_, ?_, ?_⟩
  · rw [validate_value_number f hft (.jbool b),
      validate_value_number f hft (.jint (if b then 1 else 0))]
    cases b
    · have he : toNum (JValue.jbool false) = toNum (.jint 0) := by simp [toNum]
      unfold checkNumber
      rw [he]
      norm_num
    · have he : toNum (JValue.jbool true) = toNum (.jint 1) := by simp [toNum]
      unfold checkNumber
      rw [he]
      norm_num
  · rw [validate_value_number f hft (.jbool b)]
    exact checkNumber_ne_mustBeNumber f.options (.jbool b) (if b then 1 else 0) rfl
  · intro g hg v hv
    rw [validate_value_boolean g hg v]
    simp [hv]

/-- C10 witness: True against the 0..10 number field is accepted (as 1),
while the boolean checker rejects the integer 1. -/
theorem boolean_passes_number_check_witness :
    toNum (.jbool true) = some (1 : ℚ) ∧
    validate_value exRating (.jbool true) = .ok () ∧
    validate_value exDone (.jint 1) = .error .mustBeBool := by
  have h := boolean_passes_number_check exRating rfl true
  exact ⟨h.1, by decide, h.2.2.2 exDone rfl (.jint 1) rfl⟩

end Trackr
